import Mathlib

/-!
Shallow embedding of the display-topology configuration engine of
hyprland-display-switcher (src/config.rs and src/display.rs).

Conventions of the embedding:
* Rust `String` is Lean `String`; character-level operations work on `String.toList`.
* `chrono::DateTime<Utc>` is modelled as `Nat` (timestamps are only compared and
  copied, so any linearly ordered type is faithful; wall-clock "now" is passed
  explicitly to the operations that read the clock).
* The `HashMap<String, ExtendConfiguration>` is modelled as an association list;
  `HashMap::insert` replaces the value of an existing key and otherwise appends.
  Iteration order of the HashMap is unspecified in Rust, so no theorem below
  depends on the position of untouched entries.
* `hyprland::data::Monitor` keeps only the fields the engine reads: name, width,
  height, scale and the focused flag.  `scale` is an `f32` that is only ever
  formatted into command strings, never computed with, so it is modelled by its
  displayed text.
* `Dispatch::call(DispatchType::Exec(cmd))` is modelled by an injected executor
  `ex : String → Except String Unit`; each apply operation returns the
  `Result` together with the trace of steps it actually performed (issued
  commands and the settling sleep), in order.
-/

namespace HDS

/-- `hyprland::data::Monitor`, restricted to the fields the engine reads. -/
structure Monitor where
  name : String
  width : Nat
  height : Nat
  scale : String
  focused : Bool
deriving DecidableEq, Repr

/-- `ExtendLayout` from src/config.rs. -/
inductive ExtendLayout where
  | LeftToRight
  | RightToLeft
  | TopToBottom
  | BottomToTop
deriving DecidableEq, Repr

/-- `ExtendConfiguration` from src/config.rs; timestamps are `Nat`. -/
structure ExtendConfiguration where
  name : String
  primary_monitor : String
  primary_resolution : String
  primary_rotation : String
  secondary_monitor : String
  secondary_resolution : String
  secondary_rotation : String
  layout : ExtendLayout
  created_at : Nat
  last_used : Nat
deriving DecidableEq, Repr

/-- `DisplayConfig` from src/config.rs: the in-memory store state.  The
`HashMap<String, ExtendConfiguration>` is an association list. -/
structure DisplayConfig where
  extend_configurations : List (String × ExtendConfiguration)
  last_used_extend_config : Option String
deriving DecidableEq, Repr

/-- The empty/default store (`DisplayConfig::default()`). -/
def emptyDisplayConfig : DisplayConfig := ⟨[], none⟩

/-- `HashMap::insert`: replace the value at an existing key, else add the entry. -/
def insertAssoc (k : String) (v : ExtendConfiguration) :
    List (String × ExtendConfiguration) → List (String × ExtendConfiguration)
  | [] => [(k, v)]
  | (k', v') :: rest =>
    if k' = k then (k, v) :: rest else (k', v') :: insertAssoc k v rest

/-- `ConfigManager::generate_config_key`: `format!("{}_{}", primary, secondary)`. -/
def generate_config_key (config : ExtendConfiguration) : String :=
  config.primary_monitor ++ "_" ++ config.secondary_monitor

/-- `ConfigManager::save_extend_configuration` (in-memory effect; `now` is the
wall-clock time `chrono::Utc::now()` read during the call; the final
`save_to_disk` is I/O outside the model). -/
def save_extend_configuration (store : DisplayConfig) (config : ExtendConfiguration)
    (now : Nat) : DisplayConfig :=
  let key := generate_config_key config
  let updated_config := { config with last_used := now }
  { extend_configurations := insertAssoc key updated_config store.extend_configurations
    last_used_extend_config := some key }

/-- The records whose primary and secondary monitors both appear in
`available_monitors` — the filter inside
`ConfigManager::get_extend_configuration_for_monitors`. -/
def matchingConfigs (store : DisplayConfig) (available_monitors : List String) :
    List ExtendConfiguration :=
  (store.extend_configurations.map (·.2)).filter
    (fun config => available_monitors.contains config.primary_monitor &&
      available_monitors.contains config.secondary_monitor)

/-- Stable insertion step for descending `last_used` order: the inserted element
precedes every element with a strictly smaller key and follows elements with a
greater-or-equal key it was originally behind. -/
def insertByLastUsedDesc (c : ExtendConfiguration) :
    List ExtendConfiguration → List ExtendConfiguration
  | [] => [c]
  | h :: t =>
    if h.last_used ≤ c.last_used then c :: h :: t
    else h :: insertByLastUsedDesc c t

/-- The stable sort by descending `last_used` performed by
`matching_configs.sort_by(|a, b| b.last_used.cmp(&a.last_used))`.  Rust's
`sort_by` is a stable sort, and the stable sort by a total preorder is unique
as a function, so this insertion sort computes exactly it. -/
def sortByLastUsedDesc : List ExtendConfiguration → List ExtendConfiguration
  | [] => []
  | c :: rest => insertByLastUsedDesc c (sortByLastUsedDesc rest)

/-- `ConfigManager::get_extend_configuration_for_monitors`: filter the stored
records to those whose two monitors are both available, stable-sort by
descending `last_used`, and return the first. -/
def get_extend_configuration_for_monitors (store : DisplayConfig)
    (available_monitors : List String) : Option ExtendConfiguration :=
  (sortByLastUsedDesc (matchingConfigs store available_monitors)).head?

/-- `ConfigManager::get_preferred_primary_monitor`. -/
def get_preferred_primary_monitor (store : DisplayConfig)
    (available_monitors : List String) : Option String :=
  match get_extend_configuration_for_monitors store available_monitors with
  | some last_config =>
    if available_monitors.contains last_config.primary_monitor then
      some last_config.primary_monitor
    else none
  | none => none

/-- Rust `str::split(c)` at character level, structurally recursive: cuts at
every occurrence of `c`, keeping empty pieces (`"axxb".split('x')` is
`["a", "", "b"]`, `"".split('x')` is `[""]`). -/
def splitOnCharAux (c : Char) : List Char → List Char → List (List Char)
  | [], acc => [acc.reverse]
  | x :: xs, acc =>
    if x = c then acc.reverse :: splitOnCharAux c xs []
    else splitOnCharAux c xs (x :: acc)

/-- See `splitOnCharAux`. -/
def splitOnChar (c : Char) (cs : List Char) : List (List Char) :=
  splitOnCharAux c cs []

/-- Rust `char::is_whitespace`: the Unicode `White_Space` property — code
points U+0009–U+000D (tab, LF, vertical tab, form feed, CR), U+0020 (space),
U+0085 (NEL), U+00A0 (NBSP), U+1680, U+2000–U+200A, U+2028, U+2029, U+202F,
U+205F and U+3000. -/
def isRustWhitespace (c : Char) : Bool :=
  decide ((9 ≤ c.toNat ∧ c.toNat ≤ 13) ∨ c.toNat = 32 ∨ c.toNat = 133 ∨
    c.toNat = 160 ∨ c.toNat = 0x1680 ∨ (0x2000 ≤ c.toNat ∧ c.toNat ≤ 0x200A) ∨
    c.toNat = 0x2028 ∨ c.toNat = 0x2029 ∨ c.toNat = 0x202F ∨ c.toNat = 0x205F ∨
    c.toNat = 0x3000)

/-- Rust `str::split_whitespace`: split at whitespace and drop the empty
pieces, so the result is the list of maximal non-whitespace runs. -/
def splitWhitespaceAux : List Char → List Char → List (List Char)
  | [], acc => [acc.reverse]
  | x :: xs, acc =>
    if isRustWhitespace x then acc.reverse :: splitWhitespaceAux xs []
    else splitWhitespaceAux xs (x :: acc)

/-- See `splitWhitespaceAux`. -/
def splitWhitespace (cs : List Char) : List (List Char) :=
  (splitWhitespaceAux cs []).filter (fun t => ¬ t.isEmpty)

/-- Rust `str::parse::<i32>()`: optional sign, at least one ASCII digit, all
digits, and the value must fit in `i32`. -/
def parse_i32 (cs : List Char) : Option Int :=
  let signDigits : Int × List Char :=
    match cs with
    | '+' :: rest => (1, rest)
    | '-' :: rest => (-1, rest)
    | _ => (1, cs)
  let digits := signDigits.2
  if digits.isEmpty then none
  else if digits.all Char.isDigit then
    let v : Int := signDigits.1 *
      (digits.foldl (fun acc c => 10 * acc + (c.toNat - '0'.toNat)) 0 : Nat)
    if -(2 ^ 31) ≤ v ∧ v ≤ 2 ^ 31 - 1 then some v else none
  else none

/-- `calculate_positions` from src/display.rs.  `split('x').next()` on a Rust
string always yields the part before the first `x` (the whole string when there
is no `x`), and `.nth(1)` the part between the first and second `x` when it
exists. -/
def calculate_positions (layout : ExtendLayout) (primary_width primary_height : Int)
    (secondary_resolution : String) : String × String :=
  match layout with
  | .LeftToRight => ("0x0", toString primary_width ++ "x0")
  | .RightToLeft =>
    let secondary_width :=
      (parse_i32 ((splitOnChar 'x' secondary_resolution.toList).headD
        "1920".toList)).getD 1920
    (toString secondary_width ++ "x0", "0x0")
  | .TopToBottom => ("0x0", "0x" ++ toString primary_height)
  | .BottomToTop =>
    let secondary_height :=
      (parse_i32 (((splitOnChar 'x' secondary_resolution.toList)[1]?).getD
        "1080".toList)).getD 1080
    ("0x" ++ toString secondary_height, "0x0")

/-- `get_transform_string` from src/display.rs. -/
def get_transform_string (rotation : String) : String :=
  if rotation = "left" then ",transform,1"
  else if rotation = "right" then ",transform,3"
  else if rotation = "inverted" then ",transform,2"
  else ""

/-! ### Mode-catalog parsing (src/display.rs) -/

/-- Rust `str::trim` on a character list: strip leading and trailing Unicode
whitespace (per `isRustWhitespace`, Rust's `char::is_whitespace`). -/
def trimChars (cs : List Char) : List Char :=
  ((cs.dropWhile isRustWhitespace).reverse.dropWhile isRustWhitespace).reverse

/-- The trimmed before-`@` part of a mode token with everything before its
first ASCII digit dropped — `&resolution_part[start..]` in
`extract_resolution_from_line`, where `start` is
`position(is_ascii_digit).unwrap_or(0)`. -/
def resolutionAfterStrip (line : List Char) : List Char :=
  let resolution_part := trimChars (line.takeWhile (fun c => c ≠ '@'))
  resolution_part.drop ((resolution_part.findIdx? Char.isDigit).getD 0)

/-- `extract_resolution_from_line` from src/display.rs: require an `@`, take the
substring before the first `@` (which must contain an `x`), trim it, drop
everything before the first ASCII digit (nothing when there is no digit), and
accept the remainder when it contains an `x` and consists only of ASCII digits
and `x` characters. -/
def extract_resolution_from_line (line : List Char) : Option String :=
  if line.contains '@' then
    if (line.takeWhile (fun c => c ≠ '@')).contains 'x' then
      if (resolutionAfterStrip line).contains 'x' &&
          (resolutionAfterStrip line).all (fun c => c.isDigit || c == 'x') then
        some (String.mk (resolutionAfterStrip line))
      else none
    else none
  else none

/-- The fallback resolution list inside `parse_monitor_modes`. -/
def fallbackModes3 : List String := ["1920x1080", "2560x1440", "3840x2160"]

/-- The per-token accumulation over a whitespace-tokenized `availableModes:`
payload: push each extracted resolution not already present (first-seen order,
deduplicated). -/
def collectModes (modes : List String) (tokens : List (List Char)) : List String :=
  tokens.foldl (fun acc tok =>
    match extract_resolution_from_line tok with
    | some resolution => if acc.contains resolution then acc else acc ++ [resolution]
    | none => acc) modes

/-- The line loop of `parse_monitor_modes`: scan lines with an `in_target`
flag; entering the target section on `Monitor <target>`, breaking on a
different `Monitor ` header, and processing (then breaking after) the
`availableModes:` line of the target section. -/
def parse_monitor_lines (target : List Char) :
    List (List Char) → Bool → List String → List String
  | [], _, modes => modes
  | line :: rest, in_target, modes =>
    let trimmed := trimChars line
    if ("Monitor ".toList ++ target).isPrefixOf trimmed then
      parse_monitor_lines target rest true modes
    else if in_target && "Monitor ".toList.isPrefixOf trimmed then
      modes
    else if in_target && "availableModes:".toList.isPrefixOf trimmed then
      let modes_str := trimChars (trimmed.drop "availableModes:".toList.length)
      collectModes modes (splitWhitespace modes_str)
    else
      parse_monitor_lines target rest in_target modes

/-- `parse_monitor_modes` from src/display.rs.  Rust `str::lines` is modelled by
splitting on `'\n'`: the only difference is a possible extra empty final line
and retained `'\r'`, both erased by the per-line `trim` before any test. -/
def parse_monitor_modes (output : String) (target_monitor : String) : List String :=
  let modes := parse_monitor_lines target_monitor.toList
    (splitOnChar '\n' output.toList) false []
  if modes.isEmpty then fallbackModes3 else modes

/-- One observable step of an apply operation: an issued `hyprctl` command
(via `Dispatch::call(DispatchType::Exec(..))`) or the settling sleep. -/
inductive TraceStep where
  | cmd (s : String)
  | sleep (millis : Nat)
deriving DecidableEq, Repr

/-- The injected command executor: `Dispatch::call` on one command string. -/
abbrev Exec := String → Except String Unit

/-- `determine_primary_monitor` from src/display.rs: the preferred primary from
the store when it is a live monitor, else the focused monitor, else the first
monitor.  Rust indexes `monitors[0]`, which panics on an empty slice; every
caller guards `monitors.len() >= 2` first, and the unreachable panic is
modelled by a default monitor. -/
def determine_primary_monitor (monitors : List Monitor) (store : DisplayConfig) :
    Monitor :=
  let monitor_names := monitors.map (·.name)
  let fallback := (monitors.find? (·.focused)).getD (monitors.headD ⟨"", 0, 0, "", false⟩)
  match get_preferred_primary_monitor store monitor_names with
  | some preferred_primary =>
    match monitors.find? (fun m => m.name == preferred_primary) with
    | some monitor => monitor
    | none => fallback
  | none => fallback

/-- `determine_secondary_monitor` from src/display.rs. -/
def determine_secondary_monitor (monitors : List Monitor) (primary : Monitor) :
    Option Monitor :=
  monitors.find? (fun m => m.name != primary.name)

/-- `hyprctl keyword monitor "<name>,disable"`. -/
def disableCmd (name : String) : String :=
  "hyprctl keyword monitor \"" ++ name ++ ",disable\""

/-- `hyprctl keyword monitor "<name>,<width>x<height>,0x0,<scale>"`: enable a
monitor at its native resolution at the origin. -/
def nativeCmd (m : Monitor) : String :=
  "hyprctl keyword monitor \"" ++ m.name ++ "," ++ toString m.width ++ "x" ++
    toString m.height ++ ",0x0," ++ m.scale ++ "\""

/-- The mirror command for the secondary monitor in `apply_mirror_mode`. -/
def mirrorCmd (secondary primary : Monitor) : String :=
  "hyprctl keyword monitor \"" ++ secondary.name ++ "," ++ toString primary.width ++
    "x" ++ toString primary.height ++ ",0x0," ++ primary.scale ++ ",mirror," ++
    primary.name ++ "\""

/-- Run up to two commands in order, stopping at the first failure and
recording the issued commands (shared tail of the mirror and single-screen
modes). -/
def runTwo (ex : Exec) (c1 c2 : String) : Except String Unit × List TraceStep :=
  match ex c1 with
  | .error e => (.error e, [.cmd c1])
  | .ok _ =>
    match ex c2 with
    | .error e => (.error e, [.cmd c1, .cmd c2])
    | .ok _ => (.ok (), [.cmd c1, .cmd c2])

/-- `apply_mirror_mode` from src/display.rs. -/
def apply_mirror_mode (ex : Exec) (monitors : List Monitor) (store : DisplayConfig) :
    Except String Unit × List TraceStep :=
  if monitors.length < 2 then (.ok (), [])
  else
    let primary_mon := determine_primary_monitor monitors store
    match monitors.find? (fun m => m.name != primary_mon.name) with
    | none => (.error "Secondary monitor not found", [])
    | some secondary_mon =>
      runTwo ex (nativeCmd primary_mon) (mirrorCmd secondary_mon primary_mon)

/-- `apply_single_screen_mode` from src/display.rs. -/
def apply_single_screen_mode (ex : Exec) (monitors : List Monitor)
    (primary_only : Bool) (store : DisplayConfig) :
    Except String Unit × List TraceStep :=
  if monitors.length < 2 then (.ok (), [])
  else
    let primary_monitor := determine_primary_monitor monitors store
    match determine_secondary_monitor monitors primary_monitor with
    | none => (.error "Secondary monitor not found", [])
    | some secondary_monitor =>
      let pair := if primary_only then (primary_monitor, secondary_monitor)
                  else (secondary_monitor, primary_monitor)
      runTwo ex (nativeCmd pair.1) (disableCmd pair.2.name)

/-- The effective primary resolution string in `apply_extend_mode`:
native `"<width>x<height>"` when configured `"auto"`, else the configured
literal. -/
def extendPrimaryRes (config : ExtendConfiguration) (primary : Monitor) : String :=
  if config.primary_resolution = "auto" then
    toString primary.width ++ "x" ++ toString primary.height
  else config.primary_resolution

/-- `primary_width` in `apply_extend_mode` (fallback 1920 on parse failure). -/
def extendPrimaryWidth (config : ExtendConfiguration) (primary : Monitor) : Int :=
  if config.primary_resolution = "auto" then (primary.width : Int)
  else (parse_i32 ((splitOnChar 'x' (extendPrimaryRes config primary).toList).headD
    "1920".toList)).getD 1920

/-- `primary_height` in `apply_extend_mode` (fallback 1080 on parse failure). -/
def extendPrimaryHeight (config : ExtendConfiguration) (primary : Monitor) : Int :=
  if config.primary_resolution = "auto" then (primary.height : Int)
  else (parse_i32 (((splitOnChar 'x' (extendPrimaryRes config primary).toList)[1]?).getD
    "1080".toList)).getD 1080

/-- The `(primary_pos, secondary_pos)` pair computed in `apply_extend_mode`. -/
def extendPositions (config : ExtendConfiguration) (primary : Monitor) :
    String × String :=
  calculate_positions config.layout (extendPrimaryWidth config primary)
    (extendPrimaryHeight config primary) config.secondary_resolution

/-- The `primary_command` string built in `apply_extend_mode`. -/
def extendPrimaryCommand (config : ExtendConfiguration) (primary : Monitor) : String :=
  "hyprctl keyword monitor \"" ++ config.primary_monitor ++ "," ++
    (if config.primary_resolution = "auto" then
      "auto," ++ (extendPositions config primary).1 ++ ",1"
     else
      config.primary_resolution ++ "," ++ (extendPositions config primary).1 ++ ",1") ++
    get_transform_string config.primary_rotation ++ "\""

/-- The `secondary_command` string built in `apply_extend_mode`. -/
def extendSecondaryCommand (config : ExtendConfiguration) (primary : Monitor) : String :=
  "hyprctl keyword monitor \"" ++ config.secondary_monitor ++ "," ++
    config.secondary_resolution ++ "," ++ (extendPositions config primary).2 ++ ",1" ++
    get_transform_string config.secondary_rotation ++ "\""

/-- `apply_extend_mode` from src/display.rs: guard on fewer than two monitors,
resolve both configured monitors by name (failing before any command
otherwise), then disable primary, disable secondary, sleep 1000 ms, apply the
primary command, apply the secondary command, aborting at the first failing
dispatch. -/
def apply_extend_mode (ex : Exec) (monitors : List Monitor)
    (config : ExtendConfiguration) : Except String Unit × List TraceStep :=
  if monitors.length < 2 then (.ok (), [])
  else
    match monitors.find? (fun m => m.name == config.primary_monitor) with
    | none => (.error "Primary monitor not found", [])
    | some primary_monitor =>
      match monitors.find? (fun m => m.name == config.secondary_monitor) with
      | none => (.error "Secondary monitor not found", [])
      | some _secondary_monitor =>
        let primary_command := extendPrimaryCommand config primary_monitor
        let secondary_command := extendSecondaryCommand config primary_monitor
        let d1 := disableCmd config.primary_monitor
        let d2 := disableCmd config.secondary_monitor
        match ex d1 with
        | .error e => (.error e, [.cmd d1])
        | .ok _ =>
          match ex d2 with
          | .error e => (.error e, [.cmd d1, .cmd d2])
          | .ok _ =>
            match ex primary_command with
            | .error e =>
              (.error e, [.cmd d1, .cmd d2, .sleep 1000, .cmd primary_command])
            | .ok _ =>
              match ex secondary_command with
              | .error e =>
                (.error e, [.cmd d1, .cmd d2, .sleep 1000, .cmd primary_command,
                  .cmd secondary_command])
              | .ok _ =>
                (.ok (), [.cmd d1, .cmd d2, .sleep 1000, .cmd primary_command,
                  .cmd secondary_command])

/-- The five-step fail-fast sequence of §4.4 of the spec, as a function of the
four command strings: disable primary, disable secondary, settle, apply the
primary configuration, apply the secondary configuration; the first failing
dispatch aborts the remainder and its error is returned.  Written from the
spec's words, to be compared with `apply_extend_mode`. -/
def specExtendSequence (ex : Exec) (d1 d2 pc sc : String) :
    Except String Unit × List TraceStep :=
  match ex d1 with
  | .error e => (.error e, [.cmd d1])
  | .ok _ =>
    match ex d2 with
    | .error e => (.error e, [.cmd d1, .cmd d2])
    | .ok _ =>
      match ex pc with
      | .error e => (.error e, [.cmd d1, .cmd d2, .sleep 1000, .cmd pc])
      | .ok _ =>
        match ex sc with
        | .error e => (.error e, [.cmd d1, .cmd d2, .sleep 1000, .cmd pc, .cmd sc])
        | .ok _ => (.ok (), [.cmd d1, .cmd d2, .sleep 1000, .cmd pc, .cmd sc])

/-- The shape the spec claims for every accepted resolution token: exactly
`digits 'x' digits`.  Written from the spec's words ("matches the pattern
`digits 'x' digits` exactly"), to be compared with what
`extract_resolution_from_line` actually accepts. -/
def isDigitsXDigits (s : String) : Bool :=
  match splitOnChar 'x' s.toList with
  | [w, h] => !w.isEmpty && !h.isEmpty && w.all Char.isDigit && h.all Char.isDigit
  | _ => false

/-- The whole-store state reached from the empty store by a sequence of
`save_extend_configuration` calls (each paired with the wall-clock time read
during the call). -/
def saveAll (saves : List (ExtendConfiguration × Nat)) : DisplayConfig :=
  saves.foldl (fun store p => save_extend_configuration store p.1 p.2)
    emptyDisplayConfig

/-! ## Sample data used by witnesses and counterexamples -/

/-- An executor for which every dispatch succeeds. -/
def execOk : Exec := fun _ => .ok ()

/-- A sample monitor. -/
def mDP : Monitor := ⟨"DP-1", 1920, 1080, "1", true⟩

/-- A second sample monitor. -/
def mHDMI : Monitor := ⟨"HDMI-1", 2560, 1440, "1", false⟩

/-- A sample configuration pairing `mDP` with `mHDMI`. -/
def sampleConfig : ExtendConfiguration :=
  ⟨"DP-1 + HDMI-1", "DP-1", "auto", "normal", "HDMI-1", "2560x1440", "left",
    .LeftToRight, 0, 0⟩

/-- A sample configuration with primary `"A"` and secondary `"B"`. -/
def cAB : ExtendConfiguration :=
  ⟨"A + B", "A", "auto", "normal", "B", "2560x1440", "normal", .LeftToRight, 0, 0⟩

/-- A stored record with the same monitor pair swapped (primary `"B"`,
secondary `"A"`, key `"B_A"`) carrying a `last_used` timestamp later than the
save instant used in the C2 counterexample. -/
def dBA : ExtendConfiguration :=
  ⟨"B + A", "B", "1920x1080", "normal", "A", "auto", "normal", .RightToLeft, 0, 100⟩

/-! ## Theorems -/

/-- **C1**: for every layout and all inputs, `calculate_positions` returns the
pair of the spec table: `LeftToRight ↦ ("0x0", "<primary_width>x0")`,
`TopToBottom ↦ ("0x0", "0x<primary_height>")`, `RightToLeft ↦
("<secondary_width>x0", "0x0")` with the secondary width parsed from the part
of `secondary_resolution` before the first `x` (default 1920 on parse
failure), and `BottomToTop ↦ ("0x<secondary_height>", "0x0")` with the
secondary height parsed from the part between the first and second `x`
(default 1080 on parse failure); in particular the primary position is
`"0x0"` for `LeftToRight`/`TopToBottom` and the secondary position is `"0x0"`
for `RightToLeft`/`BottomToTop`. -/
theorem C1_calculate_positions_table (pw ph : Int) (sec : String) :
    calculate_positions .LeftToRight pw ph sec = ("0x0", toString pw ++ "x0") ∧
    calculate_positions .TopToBottom pw ph sec = ("0x0", "0x" ++ toString ph) ∧
    calculate_positions .RightToLeft pw ph sec =
      (toString ((parse_i32 ((splitOnChar 'x' sec.toList).headD "1920".toList)).getD 1920)
        ++ "x0", "0x0") ∧
    calculate_positions .BottomToTop pw ph sec =
      ("0x" ++ toString ((parse_i32 (((splitOnChar 'x' sec.toList)[1]?).getD
        "1080".toList)).getD 1080), "0x0") ∧
    (calculate_positions .LeftToRight pw ph sec).1 = "0x0" ∧
    (calculate_positions .TopToBottom pw ph sec).1 = "0x0" ∧
    (calculate_positions .RightToLeft pw ph sec).2 = "0x0" ∧
    (calculate_positions .BottomToTop pw ph sec).2 = "0x0" :=
  ⟨rfl, rfl, rfl, rfl, rfl, rfl, rfl, rfl⟩

/-- **C5**: with fewer than two monitors, all three apply operations return
success and issue zero commands, for every executor, store and
configuration. -/
theorem C5_insufficient_monitors_noop (ex : Exec) (monitors : List Monitor)
    (store : DisplayConfig) (config : ExtendConfiguration) (b : Bool)
    (h : monitors.length < 2) :
    apply_mirror_mode ex monitors store = (.ok (), []) ∧
    apply_extend_mode ex monitors config = (.ok (), []) ∧
    apply_single_screen_mode ex monitors b store = (.ok (), []) := by
  unfold apply_mirror_mode apply_extend_mode apply_single_screen_mode
  simp [h]

/-- Witness for C5 at a concrete single-monitor inventory. -/
theorem C5_insufficient_monitors_noop_witness :
    apply_mirror_mode execOk [mDP] emptyDisplayConfig = (.ok (), []) ∧
    apply_extend_mode execOk [mDP] sampleConfig = (.ok (), []) ∧
    apply_single_screen_mode execOk [mDP] true emptyDisplayConfig =
      (.ok (), []) :=
  C5_insufficient_monitors_noop execOk [mDP] emptyDisplayConfig
    sampleConfig true (by decide)

/-- **C4**: with at least two monitors and a configuration naming a monitor
absent from the inventory, `apply_extend_mode` returns one of the two
monitor-not-found errors and issues zero commands. -/
theorem C4_monitor_not_found (ex : Exec) (monitors : List Monitor)
    (config : ExtendConfiguration) (h2 : 2 ≤ monitors.length)
    (habs : (∀ m ∈ monitors, m.name ≠ config.primary_monitor) ∨
            (∀ m ∈ monitors, m.name ≠ config.secondary_monitor)) :
    apply_extend_mode ex monitors config =
        (.error "Primary monitor not found", []) ∨
    apply_extend_mode ex monitors config =
        (.error "Secondary monitor not found", []) := by
  have hlt : ¬ monitors.length < 2 := by omega
  unfold apply_extend_mode
  rcases hfp : monitors.find? (fun m => m.name == config.primary_monitor) with _ | p
  · exact Or.inl (by simp [hlt, hfp])
  · have hpmem := List.mem_of_find?_eq_some hfp
    have hpname : p.name = config.primary_monitor := by
      have := List.find?_some hfp
      simpa using this
    rcases habs with habs | habs
    · exact absurd hpname (habs p hpmem)
    · have hfs : monitors.find? (fun m => m.name == config.secondary_monitor) = none := by
        rw [List.find?_eq_none]
        intro m hm
        simpa using habs m hm
      exact Or.inr (by simp [hlt, hfp, hfs])

/-- Witness for C4: two live monitors, configuration naming an absent
secondary. -/
theorem C4_monitor_not_found_witness :
    apply_extend_mode execOk [mDP, mHDMI]
        { sampleConfig with secondary_monitor := "eDP-9" } =
        (.error "Primary monitor not found", []) ∨
    apply_extend_mode execOk [mDP, mHDMI]
        { sampleConfig with secondary_monitor := "eDP-9" } =
        (.error "Secondary monitor not found", []) :=
  C4_monitor_not_found execOk [mDP, mHDMI]
    { sampleConfig with secondary_monitor := "eDP-9" } (by decide)
    (Or.inr (by decide))

/-- Every entry of `insertAssoc k v l` is the inserted entry or one of `l`. -/
theorem mem_insertAssoc {k : String} {v : ExtendConfiguration}
    {l : List (String × ExtendConfiguration)} {p : String × ExtendConfiguration} :
    p ∈ insertAssoc k v l → p = (k, v) ∨ p ∈ l := by
  induction l with
  | nil => intro h; simpa [insertAssoc] using h
  | cons hd tl ih =>
    intro h
    obtain ⟨k', v'⟩ := hd
    simp only [insertAssoc] at h
    split at h
    · rcases List.mem_cons.mp h with h' | h'
      · exact Or.inl h'
      · exact Or.inr (List.mem_cons_of_mem _ h')
    · rcases List.mem_cons.mp h with h' | h'
      · exact Or.inr (by simp [h'])
      · rcases ih h' with h'' | h''
        · exact Or.inl h''
        · exact Or.inr (List.mem_cons_of_mem _ h'')

/-- The inserted entry is present after `insertAssoc`. -/
theorem mem_insertAssoc_self (k : String) (v : ExtendConfiguration)
    (l : List (String × ExtendConfiguration)) : (k, v) ∈ insertAssoc k v l := by
  induction l with
  | nil => simp [insertAssoc]
  | cons hd tl ih =>
    obtain ⟨k', v'⟩ := hd
    simp only [insertAssoc]
    split
    · exact List.mem_cons_self _ _
    · exact List.mem_cons_of_mem _ ih

/-- The key invariant of the store. -/
def KeyInvariant (store : DisplayConfig) : Prop :=
  ∀ p ∈ store.extend_configurations, p.1 = generate_config_key p.2

/-- `save_extend_configuration` preserves the key invariant: the one entry it
writes is keyed by `generate_config_key` of the written record (refreshing
`last_used` does not change the monitors the key is built from). -/
theorem save_preserves_KeyInvariant (store : DisplayConfig)
    (config : ExtendConfiguration) (now : Nat) (h : KeyInvariant store) :
    KeyInvariant (save_extend_configuration store config now) := by
  intro p hp
  rcases mem_insertAssoc hp with rfl | hp'
  · rfl
  · exact h p hp'

/-- A fold of saves starting from a store satisfying the key invariant ends in
a store satisfying it. -/
theorem foldl_save_KeyInvariant (saves : List (ExtendConfiguration × Nat))
    (init : DisplayConfig) (hbase : KeyInvariant init) :
    KeyInvariant
      (saves.foldl (fun store p => save_extend_configuration store p.1 p.2) init) := by
  induction saves generalizing init with
  | nil => simpa using hbase
  | cons hd tl ih => exact ih _ (save_preserves_KeyInvariant _ _ _ hbase)

/-- **C9**: in every store reachable from the empty store by a sequence of
saves, each stored entry's key equals `generate_config_key` of its own record,
i.e. `"<primary>_<secondary>"` built from the record's own fields. -/
theorem C9_store_key_invariant (saves : List (ExtendConfiguration × Nat))
    (k : String) (r : ExtendConfiguration)
    (hmem : (k, r) ∈ (saveAll saves).extend_configurations) :
    k = generate_config_key r := by
  have hbase : KeyInvariant emptyDisplayConfig := by
    intro p hp; simp [emptyDisplayConfig] at hp
  exact foldl_save_KeyInvariant saves emptyDisplayConfig hbase (k, r) hmem

/-- Witness for C9: one save into the empty store yields the entry keyed
`"A_B"`. -/
theorem C9_store_key_invariant_witness :
    "A_B" = generate_config_key { cAB with last_used := 5 } :=
  C9_store_key_invariant [(cAB, 5)] "A_B" { cAB with last_used := 5 } (by decide)

/-! ## Lemmas about the stable sort by descending `last_used` -/

/-- Membership through one insertion step. -/
theorem mem_insertByLastUsedDesc {c a : ExtendConfiguration}
    {l : List ExtendConfiguration} :
    a ∈ insertByLastUsedDesc c l ↔ a = c ∨ a ∈ l := by
  induction l with
  | nil => simp [insertByLastUsedDesc]
  | cons hd t ih =>
    simp only [insertByLastUsedDesc]
    split
    · simp [List.mem_cons]
    · simp only [List.mem_cons, ih]
      tauto

/-- The sort is a membership-preserving rearrangement. -/
theorem mem_sortByLastUsedDesc {a : ExtendConfiguration}
    {l : List ExtendConfiguration} :
    a ∈ sortByLastUsedDesc l ↔ a ∈ l := by
  induction l with
  | nil => simp [sortByLastUsedDesc]
  | cons c t ih =>
    simp only [sortByLastUsedDesc, mem_insertByLastUsedDesc, ih, List.mem_cons]

/-- One insertion step preserves descending sortedness. -/
theorem pairwise_insertByLastUsedDesc {c : ExtendConfiguration}
    {l : List ExtendConfiguration}
    (h : l.Pairwise (fun a b => b.last_used ≤ a.last_used)) :
    (insertByLastUsedDesc c l).Pairwise (fun a b => b.last_used ≤ a.last_used) := by
  induction l with
  | nil => simp [insertByLastUsedDesc]
  | cons hd t ih =>
    rcases List.pairwise_cons.mp h with ⟨hhd, ht⟩
    simp only [insertByLastUsedDesc]
    split
    · rename_i hle
      refine List.pairwise_cons.mpr ⟨?_, h⟩
      intro b hb
      rcases List.mem_cons.mp hb with rfl | hb'
      · exact hle
      · exact le_trans (hhd b hb') hle
    · rename_i hgt
      refine List.pairwise_cons.mpr ⟨?_, ih ht⟩
      intro b hb
      rcases mem_insertByLastUsedDesc.mp hb with rfl | hb'
      · exact le_of_not_le hgt
      · exact hhd b hb'

/-- The sorted list is descending in `last_used`. -/
theorem pairwise_sortByLastUsedDesc (l : List ExtendConfiguration) :
    (sortByLastUsedDesc l).Pairwise (fun a b => b.last_used ≤ a.last_used) := by
  induction l with
  | nil => simp [sortByLastUsedDesc]
  | cons c t ih => exact pairwise_insertByLastUsedDesc ih

/-- The sort of a list is empty exactly when the list is. -/
theorem sortByLastUsedDesc_eq_nil {l : List ExtendConfiguration} :
    sortByLastUsedDesc l = [] ↔ l = [] := by
  cases l with
  | nil => simp [sortByLastUsedDesc]
  | cons c t =>
    simp only [sortByLastUsedDesc]
    constructor
    · intro h
      exfalso
      cases hs : sortByLastUsedDesc t with
      | nil => rw [hs] at h; simp [insertByLastUsedDesc] at h
      | cons hd tl =>
        rw [hs] at h
        simp only [insertByLastUsedDesc] at h
        split at h <;> simp at h
    · intro h; simp at h

/-- Every element of the input is bounded by the head of the sorted list. -/
theorem head_max_of_sort {l : List ExtendConfiguration}
    {h : ExtendConfiguration} {t : List ExtendConfiguration}
    (hs : sortByLastUsedDesc l = h :: t) :
    ∀ a ∈ l, a.last_used ≤ h.last_used := by
  intro a ha
  have hmem : a ∈ h :: t := by rw [← hs]; exact mem_sortByLastUsedDesc.mpr ha
  rcases List.mem_cons.mp hmem with rfl | ha'
  · exact le_refl _
  · have hp := pairwise_sortByLastUsedDesc l
    rw [hs] at hp
    exact (List.pairwise_cons.mp hp).1 a ha'

/-- If `x` strictly dominates every other element of `l` in `last_used`, the
sorted list starts with `x`. -/
theorem sort_head_of_strict_max {l : List ExtendConfiguration}
    {x : ExtendConfiguration} (hx : x ∈ l)
    (hmax : ∀ y ∈ l, y = x ∨ y.last_used < x.last_used) :
    (sortByLastUsedDesc l).head? = some x := by
  rcases hsort : sortByLastUsedDesc l with _ | ⟨h, t⟩
  · rw [sortByLastUsedDesc_eq_nil] at hsort
    subst hsort
    simp at hx
  · have hmem : h ∈ l := by
      apply mem_sortByLastUsedDesc.mp
      rw [hsort]
      exact List.mem_cons_self _ _
    have hle : x.last_used ≤ h.last_used := head_max_of_sort hsort x hx
    rcases hmax h hmem with rfl | hlt
    · simp
    · exact absurd hle (by omega)

/-- **C3** (amended only in presentation, the behaviour is that of the code):
recency selection.  (a) A store holding exactly two records whose monitor
pairs are both drawn from the available names `["A", "B"]` and whose
`last_used` differ yields the record with the later `last_used`; (b) whenever
the lookup returns a record it is a matching record with maximal `last_used`;
(c) when no record matches, the lookup returns `None`. -/
theorem C3_recency_selection (k1 k2 : String) (luo : Option String)
    (r1 r2 : ExtendConfiguration) (store store2 : DisplayConfig)
    (avail avail2 : List String) (r y : ExtendConfiguration)
    (hm1 : (List.contains ["A", "B"] r1.primary_monitor &&
            List.contains ["A", "B"] r1.secondary_monitor) = true)
    (hm2 : (List.contains ["A", "B"] r2.primary_monitor &&
            List.contains ["A", "B"] r2.secondary_monitor) = true)
    (hne : r1.last_used ≠ r2.last_used)
    (hr : get_extend_configuration_for_monitors store avail = some r)
    (hy : y ∈ matchingConfigs store avail)
    (hnone : matchingConfigs store2 avail2 = []) :
    get_extend_configuration_for_monitors ⟨[(k1, r1), (k2, r2)], luo⟩ ["A", "B"] =
      some (if r2.last_used < r1.last_used then r1 else r2) ∧
    r ∈ matchingConfigs store avail ∧
    y.last_used ≤ r.last_used ∧
    get_extend_configuration_for_monitors store2 avail2 = none := by
  have hpart1 : get_extend_configuration_for_monitors
      ⟨[(k1, r1), (k2, r2)], luo⟩ ["A", "B"] =
      some (if r2.last_used < r1.last_used then r1 else r2) := by
    have hmc : matchingConfigs ⟨[(k1, r1), (k2, r2)], luo⟩ ["A", "B"] = [r1, r2] := by
      unfold matchingConfigs
      simp only [List.map_cons, List.map_nil, List.filter_cons, List.filter_nil,
        hm1, hm2, if_true]
    unfold get_extend_configuration_for_monitors
    rw [hmc]
    simp only [sortByLastUsedDesc, insertByLastUsedDesc]
    by_cases hle : r2.last_used ≤ r1.last_used
    · rw [if_pos hle, if_pos (by omega)]
      simp
    · rw [if_neg hle, if_neg (by omega)]
      simp
  refine ⟨hpart1, ?_, ?_, ?_⟩
  · unfold get_extend_configuration_for_monitors at hr
    rcases hsort : sortByLastUsedDesc (matchingConfigs store avail) with _ | ⟨h, t⟩
    · rw [hsort] at hr; simp at hr
    · rw [hsort] at hr
      simp only [List.head?] at hr
      have : h = r := by injection hr
      subst this
      apply mem_sortByLastUsedDesc.mp
      rw [hsort]
      exact List.mem_cons_self _ _
  · unfold get_extend_configuration_for_monitors at hr
    rcases hsort : sortByLastUsedDesc (matchingConfigs store avail) with _ | ⟨h, t⟩
    · rw [hsort] at hr; simp at hr
    · rw [hsort] at hr
      simp only [List.head?] at hr
      have : h = r := by injection hr
      subst this
      exact head_max_of_sort hsort y hy
  · unfold get_extend_configuration_for_monitors
    rw [hnone]
    simp [sortByLastUsedDesc]

/-- A store holding the `"A"/"B"` record saved at time 7 and the swapped
`"B"/"A"` record last used at time 100, for the C3 witness. -/
def storeC3 : DisplayConfig :=
  ⟨[("A_B", { cAB with last_used := 7 }), ("B_A", dBA)], some "A_B"⟩

/-- Witness for C3 on `storeC3`: the 100-stamped record wins. -/
theorem C3_recency_selection_witness :
    get_extend_configuration_for_monitors
        ⟨[("A_B", { cAB with last_used := 7 }), ("B_A", dBA)], none⟩ ["A", "B"] =
      some (if dBA.last_used < ({ cAB with last_used := 7 } : ExtendConfiguration).last_used
        then { cAB with last_used := 7 } else dBA) ∧
    dBA ∈ matchingConfigs storeC3 ["A", "B"] ∧
    ({ cAB with last_used := 7 } : ExtendConfiguration).last_used ≤ dBA.last_used ∧
    get_extend_configuration_for_monitors emptyDisplayConfig ["A", "B"] = none :=
  C3_recency_selection "A_B" "B_A" none { cAB with last_used := 7 } dBA storeC3
    emptyDisplayConfig ["A", "B"] ["A", "B"] dBA { cAB with last_used := 7 }
    (by decide) (by decide) (by decide) (by decide) (by decide) (by decide)

/-- **C2 counterexample**: the round trip fails on a store already holding a
record for the same physical pair (swapped key `"B_A"`) whose `last_used`
timestamp (100) lies after the save instant (50): the lookup returns that
record, not the just-saved one. -/
theorem C2_counterexample :
    get_extend_configuration_for_monitors
        (save_extend_configuration ⟨[("B_A", dBA)], some "B_A"⟩ cAB 50)
        [cAB.primary_monitor, cAB.secondary_monitor] = some dBA ∧
    dBA ≠ { cAB with last_used := 50 } := by
  constructor
  · rfl
  · decide

/-- **C2 (amended)**: the save→lookup round trip holds whenever every already
stored record matching the pair carries a `last_used` strictly before the save
time: after `save_extend_configuration c` at time `now`, looking the pair up
returns exactly `c` with `last_used` refreshed to `now`. -/
theorem C2_save_lookup_roundtrip (store : DisplayConfig)
    (c : ExtendConfiguration) (now : Nat)
    (hpast : ∀ r ∈ matchingConfigs store [c.primary_monitor, c.secondary_monitor],
      r.last_used < now) :
    get_extend_configuration_for_monitors (save_extend_configuration store c now)
      [c.primary_monitor, c.secondary_monitor] = some { c with last_used := now } := by
  unfold get_extend_configuration_for_monitors
  apply sort_head_of_strict_max
  · -- the refreshed record is among the matches of the post-save store
    unfold matchingConfigs
    rw [List.mem_filter]
    constructor
    · rw [List.mem_map]
      exact ⟨(generate_config_key c, { c with last_used := now }),
        mem_insertAssoc_self _ _ _, rfl⟩
    · simp
  · -- every other match is an old record, hence strictly older
    intro yc hyc
    unfold matchingConfigs at hyc
    rw [List.mem_filter] at hyc
    rcases hyc with ⟨hymem, hycond⟩
    rw [List.mem_map] at hymem
    rcases hymem with ⟨p, hp, hpy⟩
    rcases mem_insertAssoc hp with rfl | hpold
    · left; exact hpy.symm ▸ rfl
    · right
      apply hpast
      unfold matchingConfigs
      rw [List.mem_filter]
      exact ⟨List.mem_map.mpr ⟨p, hpold, hpy⟩, hycond⟩

/-- Witness for C2 at the empty store: saving `cAB` at time 5 then looking up
the pair returns the refreshed record. -/
theorem C2_save_lookup_roundtrip_witness :
    get_extend_configuration_for_monitors
      (save_extend_configuration emptyDisplayConfig cAB 5)
      [cAB.primary_monitor, cAB.secondary_monitor] =
      some { cAB with last_used := 5 } :=
  C2_save_lookup_roundtrip emptyDisplayConfig cAB 5 (by decide)

/-! ## Mode-parser lemmas (C6, C7) -/

/-- Whatever `extract_resolution_from_line` accepts contains an `x` and is made
of ASCII digits and `x` characters only. -/
theorem extract_some_shape {token : List Char} {r : String}
    (h : extract_resolution_from_line token = some r) :
    (r.toList.contains 'x' && r.toList.all (fun c => c.isDigit || c == 'x')) = true := by
  unfold extract_resolution_from_line at h
  split at h
  · split at h
    · split at h
      · rename_i hcond
        injection h with h'
        subst h'
        exact hcond
      · exact Option.noConfusion h
    · exact Option.noConfusion h
  · exact Option.noConfusion h

/-- A token without `@` is rejected. -/
theorem extract_none_of_no_at {token : List Char}
    (h : token.contains '@' = false) :
    extract_resolution_from_line token = none := by
  unfold extract_resolution_from_line
  rw [h]
  simp

/-- Every string accumulated by `collectModes` was already present or was
accepted by `extract_resolution_from_line` on some token. -/
theorem mem_collectModes (r : String) : ∀ (tokens : List (List Char)) (modes : List String),
    r ∈ collectModes modes tokens →
    r ∈ modes ∨ ∃ tok, extract_resolution_from_line tok = some r := by
  intro tokens
  induction tokens with
  | nil => intro modes h; exact Or.inl (by simpa [collectModes] using h)
  | cons t ts ih =>
    intro modes h
    simp only [collectModes, List.foldl_cons] at h
    rcases hext : extract_resolution_from_line t with _ | res
    · simp only [hext] at h
      exact ih modes (show r ∈ collectModes modes ts from h)
    · simp only [hext] at h
      by_cases hc : modes.contains res
      · rw [if_pos hc] at h
        exact ih modes (show r ∈ collectModes modes ts from h)
      · rw [if_neg hc] at h
        rcases ih (modes ++ [res]) (show r ∈ collectModes (modes ++ [res]) ts from h)
          with h' | h'
        · rcases List.mem_append.mp h' with h'' | h''
          · exact Or.inl h''
          · simp at h''
            subst h''
            exact Or.inr ⟨t, hext⟩
        · exact Or.inr h'

/-- Every string in the list produced by the line loop was already in the
accumulator or was accepted by `extract_resolution_from_line`. -/
theorem mem_parse_monitor_lines (target : List Char) (r : String) :
    ∀ (lines : List (List Char)) (flag : Bool) (modes : List String),
    r ∈ parse_monitor_lines target lines flag modes →
    r ∈ modes ∨ ∃ tok, extract_resolution_from_line tok = some r := by
  intro lines
  induction lines with
  | nil => intro flag modes h; exact Or.inl (by simpa [parse_monitor_lines] using h)
  | cons line rest ih =>
    intro flag modes h
    simp only [parse_monitor_lines] at h
    split at h
    · exact ih _ _ h
    · split at h
      · exact Or.inl h
      · split at h
        · exact mem_collectModes r _ _ h
        · exact ih _ _ h

/-- **C6 counterexample**: the parser accepts `"1920x"` from the token
`"1920x@60.00Hz"`, a string that is not of the exact shape
`digits 'x' digits`, and such a string reaches the parsed mode list. -/
theorem C6_counterexample :
    extract_resolution_from_line "1920x@60.00Hz".toList = some "1920x" ∧
    parse_monitor_modes "Monitor DP-1 (ID 0):\n availableModes: 1920x@60.00Hz"
      "DP-1" = ["1920x"] ∧
    isDigitsXDigits "1920x" = false := by decide

/-- **C6 (amended)**: for every token, the parser takes the substring before
the first `@` (tokens without `@` are rejected) and accepts the remainder
after the leading-strip only if it contains an `x` and consists solely of
ASCII digits and `x` characters — not necessarily of the exact shape
`digits 'x' digits`; every string in the mode list accumulated by the line
loop (before fallback) has that weaker shape. -/
theorem C6_token_acceptance (token tok2 : List Char) (r s : String)
    (output target : String)
    (h1 : extract_resolution_from_line token = some r)
    (h2 : tok2.contains '@' = false)
    (h3 : s ∈ parse_monitor_lines target.toList (splitOnChar '\n' output.toList)
      false []) :
    (r.toList.contains 'x' && r.toList.all (fun c => c.isDigit || c == 'x')) = true ∧
    extract_resolution_from_line tok2 = none ∧
    (s.toList.contains 'x' && s.toList.all (fun c => c.isDigit || c == 'x')) = true := by
  refine ⟨extract_some_shape h1, extract_none_of_no_at h2, ?_⟩
  rcases mem_parse_monitor_lines target.toList s _ false [] h3 with h' | ⟨tok, htok⟩
  · simp at h'
  · exact extract_some_shape htok

/-- Witness for C6 on a well-formed capability text. -/
theorem C6_token_acceptance_witness :
    (("1920x1080".toList.contains 'x' &&
      "1920x1080".toList.all (fun c => c.isDigit || c == 'x')) = true) ∧
    extract_resolution_from_line "ordinary".toList = none ∧
    (("1920x1080".toList.contains 'x' &&
      "1920x1080".toList.all (fun c => c.isDigit || c == 'x')) = true) :=
  C6_token_acceptance "1920x1080@60.00Hz".toList "ordinary".toList "1920x1080"
    "1920x1080" "Monitor DP-1 (ID 0):\n availableModes: 1920x1080@60.00Hz" "DP-1"
    (by decide) (by decide) (by decide)

/-- **C8**: with both configured monitors present in an inventory of at least
two, `apply_extend_mode` performs exactly the five-step sequence of the spec —
disable primary, disable secondary, settle for 1000 ms, apply the primary
configuration command, apply the secondary configuration command — with the
first failing step aborting the remainder and its error surfaced
(`specExtendSequence` encodes that fail-fast cascade and the trace each
outcome leaves). -/
theorem C8_extend_sequence (ex : Exec) (monitors : List Monitor)
    (config : ExtendConfiguration) (p s : Monitor)
    (h2 : ¬ monitors.length < 2)
    (hp : monitors.find? (fun m => m.name == config.primary_monitor) = some p)
    (hs : monitors.find? (fun m => m.name == config.secondary_monitor) = some s) :
    apply_extend_mode ex monitors config =
      specExtendSequence ex (disableCmd config.primary_monitor)
        (disableCmd config.secondary_monitor) (extendPrimaryCommand config p)
        (extendSecondaryCommand config p) := by
  unfold apply_extend_mode specExtendSequence
  simp only [if_neg h2, hp, hs]

/-- Witness for C8 at a concrete two-monitor inventory with an all-succeeding
executor. -/
theorem C8_extend_sequence_witness :
    apply_extend_mode execOk [mDP, mHDMI] sampleConfig =
      specExtendSequence execOk (disableCmd sampleConfig.primary_monitor)
        (disableCmd sampleConfig.secondary_monitor)
        (extendPrimaryCommand sampleConfig mDP)
        (extendSecondaryCommand sampleConfig mDP) :=
  C8_extend_sequence execOk [mDP, mHDMI] sampleConfig mDP mHDMI
    (by decide) (by decide) (by decide)

/-- Among at least two monitors with pairwise-distinct names there is always a
monitor named differently from any given one. -/
theorem exists_other_name (monitors : List Monitor) (p : Monitor)
    (h2 : 2 ≤ monitors.length) (hnd : (monitors.map Monitor.name).Nodup) :
    ∃ m ∈ monitors, (m.name != p.name) = true := by
  rcases monitors with _ | ⟨a, _ | ⟨b, rest⟩⟩
  · simp at h2
  · simp at h2
  · have hanb : a.name ∉ List.map Monitor.name (b :: rest) :=
      (List.nodup_cons.mp hnd).1
    have hab : a.name ≠ b.name := by
      intro he
      exact hanb (by simp [he])
    by_cases hpa : p.name = a.name
    · refine ⟨b, by simp, ?_⟩
      rw [bne_iff_ne]
      rw [hpa]
      exact fun hbn => hab hbn.symm
    · refine ⟨a, by simp, ?_⟩
      rw [bne_iff_ne]
      exact fun han => hpa han.symm

/-- Under the distinct-name precondition the secondary search succeeds. -/
theorem find_secondary_isSome (monitors : List Monitor) (p : Monitor)
    (h2 : 2 ≤ monitors.length) (hnd : (monitors.map Monitor.name).Nodup) :
    (monitors.find? (fun m => m.name != p.name)).isSome = true := by
  rcases exists_other_name monitors p h2 hnd with ⟨m, hm, hmn⟩
  rw [List.find?_isSome]
  exact ⟨m, hm, hmn⟩

/-- An error coming out of `runTwo` is the error of one of its two
dispatches. -/
theorem runTwo_error {ex : Exec} {c1 c2 e : String}
    (h : (runTwo ex c1 c2).1 = .error e) :
    ex c1 = .error e ∨ ex c2 = .error e := by
  unfold runTwo at h
  cases h1 : ex c1 with
  | error e1 =>
    rw [h1] at h
    simp at h
    exact Or.inl (by rw [h])
  | ok u =>
    cases u
    rw [h1] at h
    cases h2 : ex c2 with
    | error e2 =>
      rw [h2] at h
      simp at h
      exact Or.inr (by rw [h])
    | ok u2 =>
      cases u2
      rw [h2] at h
      simp at h

/-- **C10**: when the inventory holds at least two monitors with
pairwise-distinct names, the search for a secondary monitor always succeeds,
and neither `apply_mirror_mode` nor `apply_single_screen_mode` can return the
`"Secondary monitor not found"` error (provided, for the last two conjuncts,
that no dispatched command happens to fail with that exact text). -/
theorem C10_secondary_unreachable (monitors : List Monitor)
    (store : DisplayConfig) (ex : Exec) (b : Bool)
    (h2 : 2 ≤ monitors.length)
    (hnd : (monitors.map Monitor.name).Nodup)
    (hex : ∀ s e, ex s = .error e → e ≠ "Secondary monitor not found") :
    (determine_secondary_monitor monitors
      (determine_primary_monitor monitors store)).isSome = true ∧
    (apply_mirror_mode ex monitors store).1 ≠
      .error "Secondary monitor not found" ∧
    (apply_single_screen_mode ex monitors b store).1 ≠
      .error "Secondary monitor not found" := by
  have hlt : ¬ monitors.length < 2 := by omega
  have hsec := find_secondary_isSome monitors
    (determine_primary_monitor monitors store) h2 hnd
  refine ⟨hsec, ?_, ?_⟩
  · unfold apply_mirror_mode
    rw [if_neg hlt]
    rcases ho : monitors.find?
        (fun m => m.name != (determine_primary_monitor monitors store).name)
        with _ | sec
    · rw [ho] at hsec
      simp at hsec
    · simp only [ho]
      intro hcontra
      rcases runTwo_error hcontra with h' | h'
      · exact hex _ _ h' rfl
      · exact hex _ _ h' rfl
  · unfold apply_single_screen_mode determine_secondary_monitor
    rw [if_neg hlt]
    rcases ho : monitors.find?
        (fun m => m.name != (determine_primary_monitor monitors store).name)
        with _ | sec
    · unfold determine_secondary_monitor at hsec
      rw [ho] at hsec
      simp at hsec
    · simp only [ho]
      intro hcontra
      rcases runTwo_error hcontra with h' | h'
      · exact hex _ _ h' rfl
      · exact hex _ _ h' rfl

/-- Witness for C10 at a concrete two-monitor inventory. -/
theorem C10_secondary_unreachable_witness :
    (determine_secondary_monitor [mDP, mHDMI]
      (determine_primary_monitor [mDP, mHDMI] emptyDisplayConfig)).isSome = true ∧
    (apply_mirror_mode execOk [mDP, mHDMI] emptyDisplayConfig).1 ≠
      .error "Secondary monitor not found" ∧
    (apply_single_screen_mode execOk [mDP, mHDMI] true emptyDisplayConfig).1 ≠
      .error "Secondary monitor not found" :=
  C10_secondary_unreachable [mDP, mHDMI] emptyDisplayConfig execOk true
    (by decide) (by decide)
    (fun _ _ h => Except.noConfusion h)

end HDS
